import Mathlib

/-!
Shallow embedding of the operational resilience and telemetry core of the
trip-planner repository: bounded TTL+LRU cache, token-bucket rate limiter,
three-state circuit breaker, retry-with-backoff, the structured logger with
best-effort remote forwarding, and the global name-keyed registries.
Definitions are translated from the TypeScript sources; components that the
repository documents but whose implementation is absent from the source tree
(info-forwarding allowlist, info dedupe, AWS log classification) are modelled
from the specification and marked as such in their doc comments.
-/

namespace TripPlanner

/-! ## Association-list primitives

JavaScript Map objects keyed by strings are embedded as association lists
with unique keys. Lookup returns the first binding; set replaces an existing
binding in place or appends; JS Map deletion is embedded as a filter.
-/

def alookup {κ β : Type} [DecidableEq κ] : List (κ × β) → κ → Option β
  | [], _ => none
  | (a, b) :: t, k => if a = k then some b else alookup t k

def aset {κ β : Type} [DecidableEq κ] : List (κ × β) → κ → β → List (κ × β)
  | [], k, v => [(k, v)]
  | (a, b) :: t, k, v => if a = k then (k, v) :: t else (a, b) :: aset t k v

theorem alookup_aset_self {κ β : Type} [DecidableEq κ]
    (l : List (κ × β)) (k : κ) (v : β) : alookup (aset l k v) k = some v := by
  induction l with
  | nil => simp [aset, alookup]
  | cons hd tl ih =>
    obtain ⟨a, b⟩ := hd
    by_cases h : a = k
    · simp [aset, alookup, h]
    · simp [aset, alookup, h, ih]

theorem alookup_aset_ne {κ β : Type} [DecidableEq κ]
    (l : List (κ × β)) (k k2 : κ) (v : β) (h : k2 ≠ k) :
    alookup (aset l k v) k2 = alookup l k2 := by
  have hkk2 : k ≠ k2 := fun hh => h hh.symm
  induction l with
  | nil => simp [aset, alookup, hkk2]
  | cons hd tl ih =>
    obtain ⟨a, b⟩ := hd
    by_cases ha : a = k
    · subst ha
      simp [aset, alookup, hkk2]
    · simp [aset, alookup, ha, ih]

theorem alookup_filter_ne {β : Type}
    (l : List (String × β)) (x k : String) :
    alookup (l.filter (fun p => p.1 != x)) k =
      if k = x then none else alookup l k := by
  induction l with
  | nil => simp [alookup]
  | cons hd tl ih =>
    obtain ⟨a, b⟩ := hd
    by_cases hax : a = x
    · subst hax
      simp only [List.filter_cons, bne_self_eq_false, if_false]
      by_cases hk : k = a
      · subst hk
        simp [ih]
      · have hk2 : a ≠ k := fun hh => hk hh.symm
        simp [alookup, ih, hk, hk2]
    · have hbne : (a != x) = true := bne_iff_ne.mpr hax
      simp only [List.filter_cons, hbne, if_true]
      by_cases hak : a = k
      · subst hak
        simp [alookup, hax]
      · simp [alookup, hak, ih]

/-! ## Cache (app/lib/cache.ts)

CacheEntry is a value plus an absolute expiry instant. The cache state is
the Map of entries plus the accessOrder list: least-recently-touched key at
the head, most recent at the tail. The lookup key in the source is the JSON
serialization of an arbitrary value; keys are embedded as the already
serialized strings.
-/

structure CacheEntry (T : Type) where
  value : T
  expiresAt : Nat
deriving DecidableEq, Repr

structure CacheOptions where
  ttl : Nat
  maxSize : Nat
deriving DecidableEq, Repr

structure CacheState (T : Type) where
  entries : List (String × CacheEntry T)
  accessOrder : List String
deriving DecidableEq, Repr

def DEFAULT_TTL : Nat := 5 * 60 * 1000

def DEFAULT_MAX_SIZE : Nat := 100

/-- JavaScript truthy-or on numbers: a nonzero left operand wins, zero falls
through to the right operand (source writes ttl or options.ttl with the
or-else operator, so an explicit 0 falls back to the default). -/
def jsOr (a b : Nat) : Nat := if a = 0 then b else a

def jsOrOpt (a : Option Nat) (b : Nat) : Nat := jsOr (a.getD 0) b

namespace Cache

def isExpired {T : Type} (now : Nat) (e : CacheEntry T) : Bool :=
  decide (now > e.expiresAt)

def evictOldest {T : Type} (s : CacheState T) : CacheState T :=
  match s.accessOrder with
  | [] => s
  | oldest :: rest =>
    { entries := s.entries.filter (fun p => p.1 != oldest), accessOrder := rest }

def get {T : Type} (s : CacheState T) (k : String) (now : Nat) :
    Option T × CacheState T :=
  match alookup s.entries k with
  | none => (none, s)
  | some e =>
    if now > e.expiresAt then
      (none, { entries := s.entries.filter (fun p => p.1 != k),
               accessOrder := s.accessOrder.filter (fun a => a != k) })
    else
      (some e.value, { entries := s.entries,
                       accessOrder := s.accessOrder.filter (fun a => a != k) ++ [k] })

def set {T : Type} (opts : CacheOptions) (s : CacheState T) (k : String)
    (v : T) (ttl : Option Nat) (now : Nat) : CacheState T :=
  let expiresAt := now + jsOrOpt ttl opts.ttl
  let s1 :=
    if opts.maxSize ≤ s.entries.length ∧ (alookup s.entries k).isNone = true then
      evictOldest s
    else s
  { entries := aset s1.entries k ⟨v, expiresAt⟩,
    accessOrder := s1.accessOrder.filter (fun a => a != k) ++ [k] }

def size {T : Type} (s : CacheState T) : Nat := s.entries.length

end Cache

/-- fetchWithCache: on hit return the cached value; on miss run the producer,
store the result and return it. The producer is embedded as an Except value:
an error constructor is a thrown exception, which the wrapper does not catch,
so the set step is never reached on failure. -/
def fetchWithCache {T ε : Type} (opts : CacheOptions) (s : CacheState T)
    (k : String) (producer : Except ε T) (ttl : Option Nat) (now : Nat) :
    Except ε T × CacheState T :=
  match Cache.get s k now with
  | (some v, s1) => (Except.ok v, s1)
  | (none, s1) =>
    match producer with
    | Except.error e => (Except.error e, s1)
    | Except.ok v => (Except.ok v, Cache.set opts s1 k v ttl now)

/-! ## CircuitBreaker (app/lib/circuit-breaker.ts)

The wrapped call is embedded as its outcome: a success or a failure (the
per-call timeout of the source counts as a failure, so it needs no separate
constructor). The execute step takes the current clock value explicitly.
-/

inductive CircuitState
  | CLOSED
  | OPEN
  | HALF_OPEN
deriving DecidableEq, Repr

structure CBOptions where
  failureThreshold : Nat
  successThreshold : Nat
  timeout : Nat
  resetTimeout : Nat
deriving DecidableEq, Repr

structure CBState where
  state : CircuitState
  failureCount : Nat
  successCount : Nat
  nextAttempt : Nat
deriving DecidableEq, Repr

inductive CallOutcome
  | success
  | failure
deriving DecidableEq, Repr

inductive ExecResult
  | blocked
  | ran (outcome : CallOutcome)
deriving DecidableEq, Repr

namespace CircuitBreaker

def onSuccess (o : CBOptions) (s : CBState) : CBState :=
  let s1 : CBState := { s with failureCount := 0 }
  if s1.state = CircuitState.HALF_OPEN then
    let s2 : CBState := { s1 with successCount := s1.successCount + 1 }
    if o.successThreshold ≤ s2.successCount then
      { s2 with state := CircuitState.CLOSED }
    else s2
  else s1

def onFailure (o : CBOptions) (now : Nat) (s : CBState) : CBState :=
  let s1 : CBState := { s with failureCount := s.failureCount + 1, successCount := 0 }
  if o.failureThreshold ≤ s1.failureCount then
    { s1 with state := CircuitState.OPEN, nextAttempt := now + o.resetTimeout }
  else s1

def execute (o : CBOptions) (s : CBState) (now : Nat) (out : CallOutcome) :
    ExecResult × CBState :=
  if s.state = CircuitState.OPEN ∧ now < s.nextAttempt then
    (ExecResult.blocked, s)
  else
    let s1 :=
      if s.state = CircuitState.OPEN then
        { s with state := CircuitState.HALF_OPEN, successCount := 0 }
      else s
    match out with
    | CallOutcome.success => (ExecResult.ran CallOutcome.success, onSuccess o s1)
    | CallOutcome.failure => (ExecResult.ran CallOutcome.failure, onFailure o now s1)

def execState (o : CBOptions) (s : CBState) (now : Nat) (out : CallOutcome) : CBState :=
  (execute o s now out).2

def initState (now : Nat) : CBState :=
  { state := CircuitState.CLOSED, failureCount := 0, successCount := 0, nextAttempt := now }

end CircuitBreaker

/-! ## RateLimiter (src/unnamed/part_011)

Token count is an integer (the source stores a JS number and, as proved
below, can drive it negative); clock instants are naturals. Refill only adds
tokens in whole refillInterval steps. The blocking acquire is embedded as a
function returning the completion instant together with the final state: the
caller sleeps for the computed wait, refills once and deducts.
-/

structure RLOptions where
  maxTokens : Nat
  refillRate : Nat
  refillInterval : Nat
deriving DecidableEq, Repr

structure RLState where
  tokens : Int
  lastRefill : Nat
deriving DecidableEq, Repr

namespace RateLimiter

def refill (o : RLOptions) (now : Nat) (s : RLState) : RLState :=
  let timePassed := now - s.lastRefill
  let intervalsElapsed := timePassed / o.refillInterval
  if 0 < intervalsElapsed then
    let tokensToAdd := intervalsElapsed * o.refillRate
    { tokens := min (s.tokens + (tokensToAdd : Int)) (o.maxTokens : Int),
      lastRefill := now }
  else s

def tryAcquire (o : RLOptions) (now : Nat) (n : Nat) (s : RLState) : Bool × RLState :=
  let s1 := refill o now s
  if (n : Int) ≤ s1.tokens then (true, { s1 with tokens := s1.tokens - (n : Int) })
  else (false, s1)

/-- Blocking acquire. Returns the instant at which the call completes and the
state it leaves behind. On insufficient tokens the source computes
waitTime = ceil(tokensNeeded / refillRate) * refillInterval, sleeps exactly
once, refills again and deducts unconditionally. -/
def acquire (o : RLOptions) (now : Nat) (n : Nat) (s : RLState) : Nat × RLState :=
  let s1 := refill o now s
  if (n : Int) ≤ s1.tokens then
    (now, { s1 with tokens := s1.tokens - (n : Int) })
  else
    let tokensNeeded := ((n : Int) - s1.tokens).toNat
    let intervalsNeeded := (tokensNeeded + o.refillRate - 1) / o.refillRate
    let waitTime := intervalsNeeded * o.refillInterval
    let wake := now + waitTime
    let s2 := refill o wake s1
    (wake, { s2 with tokens := s2.tokens - (n : Int) })

def getAvailableTokens (o : RLOptions) (now : Nat) (s : RLState) : Int × RLState :=
  let s1 := refill o now s
  (s1.tokens, s1)

def reset (o : RLOptions) (now : Nat) : RLState :=
  { tokens := (o.maxTokens : Int), lastRefill := now }

def initState (o : RLOptions) (now : Nat) : RLState :=
  { tokens := (o.maxTokens : Int), lastRefill := now }

end RateLimiter

/-- One operation of a rate-limiter run: the delay (in milliseconds) since
the previous operation completed, paired with the action. Encoding times as
nonnegative delays keeps the wall clock monotone across the run, matching a
single-threaded runtime reading a monotone Date.now. -/
inductive RLAction
  | acquire (n : Nat)
  | tryAcquire (n : Nat)
  | getAvailableTokens
  | reset
deriving DecidableEq, Repr

def RateLimiter.runOp (o : RLOptions) (p : RLState × Nat) (op : Nat × RLAction) :
    RLState × Nat :=
  let now := p.2 + op.1
  match op.2 with
  | RLAction.acquire n =>
    let r := RateLimiter.acquire o now n p.1
    (r.2, r.1)
  | RLAction.tryAcquire n => ((RateLimiter.tryAcquire o now n p.1).2, now)
  | RLAction.getAvailableTokens => ((RateLimiter.getAvailableTokens o now p.1).2, now)
  | RLAction.reset => (RateLimiter.reset o now, now)

def RateLimiter.runOps (o : RLOptions) (p : RLState × Nat)
    (ops : List (Nat × RLAction)) : RLState × Nat :=
  ops.foldl (RateLimiter.runOp o) p

/-- Well-formedness of a limiter state paired with the current clock: the
token invariant plus the fact that the recorded refill instant does not lie
in the future. -/
abbrev RLWf (o : RLOptions) (p : RLState × Nat) : Prop :=
  0 ≤ p.1.tokens ∧ p.1.tokens ≤ (o.maxTokens : Int) ∧ p.1.lastRefill ≤ p.2

/-- The request bound under which the token invariant is preserved: blocking
acquires must not ask for more than the bucket can ever hold (the source
deducts the request unconditionally after its single wait, so a larger
request drives the count negative); tryAcquire may ask for anything. -/
def opOk (o : RLOptions) : Nat × RLAction → Prop
  | (_, RLAction.acquire n) => n ≤ o.maxTokens
  | _ => True

/-! ## RetryPolicy, fetchWithRetry (src/unnamed/part_015)

The work unit is embedded as a map from attempt number (1-based) to its
outcome: an HTTP response with a status code, or a thrown error of one of
the shapes the source inspects. Backoff delays and jitter do not influence
which value is returned or how many attempts run, so they are not part of
the embedding.
-/

inductive FetchError
  | typeErrorFetch
  | abortOrTimeout
  | httpStatus (status : Nat)
  | otherError
deriving DecidableEq, Repr

inductive FetchOutcome
  | resp (status : Nat)
  | exn (e : FetchError)
deriving DecidableEq, Repr

structure RetryOptions where
  maxRetries : Nat
  retryableStatuses : List Nat
deriving DecidableEq, Repr

def defaultRetryableStatuses : List Nat := [408, 429, 500, 502, 503, 504]

def responseOk (status : Nat) : Bool := 200 ≤ status && status < 300

def isRetryableError (o : RetryOptions) : FetchError → Bool
  | FetchError.typeErrorFetch => true
  | FetchError.abortOrTimeout => true
  | FetchError.httpStatus s => o.retryableStatuses.contains s
  | FetchError.otherError => false

inductive RetryResult
  | success (status attempts : Nat)
  | returnedResponse (status attempts : Nat)
  | thrown (e : FetchError) (attempts : Nat)
deriving DecidableEq, Repr

/-- The catch block of the attempt loop: on the last attempt, or on a
non-retryable error, the error propagates; otherwise the loop retries. -/
def retryGo (o : RetryOptions) (f : Nat → FetchOutcome) :
    Nat → Nat → RetryResult
  | _, 0 => RetryResult.thrown FetchError.otherError 0
  | attempt, fuel + 1 =>
    let caught (e : FetchError) : RetryResult :=
      if o.maxRetries < attempt then RetryResult.thrown e attempt
      else if isRetryableError o e then retryGo o f (attempt + 1) fuel
      else RetryResult.thrown e attempt
    match f attempt with
    | FetchOutcome.resp status =>
      if responseOk status then RetryResult.success status attempt
      else if status ∈ o.retryableStatuses then
        caught (FetchError.httpStatus status)
      else RetryResult.returnedResponse status attempt
    | FetchOutcome.exn e => caught e

def fetchWithRetry (o : RetryOptions) (f : Nat → FetchOutcome) : RetryResult :=
  retryGo o f 1 (o.maxRetries + 1)

/-! ## Logger remote forwarding containment (app/lib/logger.ts, sendToAwsLambda)

Process-wide failure counter and cooldown: a send is skipped entirely when
remote forwarding is not configured or when the clock is inside the cooldown
window. Otherwise up to maxAttempts delivery attempts run; a 2xx response
resets the counter and the window; a fully failed send bumps the counter and,
at 5 consecutive failures, opens a cooldown of cooldownMs and resets the
counter. Attempt outcomes of the sink are embedded as a map from attempt
number to response status or a thrown transport error.
-/

structure AwsForwardConfig where
  configured : Bool
  timeoutMs : Nat
  maxAttempts : Nat
  cooldownMs : Nat
deriving DecidableEq, Repr

structure AwsForwardState where
  consecutiveLambdaFailures : Nat
  lambdaDisabledUntil : Nat
deriving DecidableEq, Repr

inductive AttemptOutcome
  | resp (status : Nat)
  | exn
deriving DecidableEq, Repr

namespace Logger

/-- The attempt loop of sendToAwsLambda: a 2xx response succeeds; a non-2xx
response retries only when more attempts remain and the status is 5xx; a
thrown error retries whenever more attempts remain. Returns whether delivery
succeeded and how many attempts were made. -/
def awsGo (f : Nat → AttemptOutcome) (maxAttempts : Nat) :
    Nat → Nat → Bool × Nat
  | _, 0 => (false, 0)
  | attempt, fuel + 1 =>
    match f attempt with
    | AttemptOutcome.resp status =>
      if responseOk status then (true, attempt)
      else if attempt < maxAttempts ∧ 500 ≤ status then
        awsGo f maxAttempts (attempt + 1) fuel
      else (false, attempt)
    | AttemptOutcome.exn =>
      if attempt < maxAttempts then awsGo f maxAttempts (attempt + 1) fuel
      else (false, attempt)

def awsAttempts (cfg : AwsForwardConfig) (f : Nat → AttemptOutcome) : Bool × Nat :=
  awsGo f cfg.maxAttempts 1 (cfg.maxAttempts + 1)

/-- sendToAwsLambda as a state transformer: returns the number of delivery
attempts actually made (0 when forwarding is skipped) and the new
process-wide forwarding state. -/
def sendToAwsLambda (cfg : AwsForwardConfig) (st : AwsForwardState) (now : Nat)
    (f : Nat → AttemptOutcome) : Nat × AwsForwardState :=
  if cfg.configured = false then (0, st)
  else if now < st.lambdaDisabledUntil then (0, st)
  else
    let r := awsAttempts cfg f
    if r.1 then (r.2, { consecutiveLambdaFailures := 0, lambdaDisabledUntil := 0 })
    else
      let c := st.consecutiveLambdaFailures + 1
      if 5 ≤ c then
        (r.2, { consecutiveLambdaFailures := 0, lambdaDisabledUntil := now + cfg.cooldownMs })
      else
        (r.2, { consecutiveLambdaFailures := c,
                lambdaDisabledUntil := st.lambdaDisabledUntil })

end Logger

/-! ## Logger entries, eligibility, dedupe and classification

The repository documents an info-forwarding allowlist, an info dedupe window
(environment key AWS_LOG_LAMBDA_INFO_DEDUPE_WINDOW_MS, default 5000) and an
attached aws_meta classification object, and its log-design audit points at
logger lines implementing them, but the logger version carrying that code is
absent from the available sources; those parts are modelled from the
specification below and say so in their doc comments. The truncation helper
and the closed event-type set are taken from the sources (logger.ts
truncateString and the client-log route event-type union).
-/

inductive Level
  | debug
  | info
  | warn
  | error
deriving DecidableEq, Repr

/-- A log entry as the forwarding pipeline sees it: the payload data is the
serialized JSON string; the event-type tag and the duration field are the
relevant pieces of the data bag, lifted out. -/
structure MLogEntry where
  level : Level
  message : String
  endpoint : String
  data : Option String
  eventType : Option String
  durationMs : Option Nat
deriving DecidableEq, Repr

/-- truncateString from logger.ts: values at or under the cap pass through,
longer values are cut at the cap and marked. -/
def truncateString (value : String) (max : Nat) : String :=
  if value.length ≤ max then value else value.take max ++ "...<truncated>"

/-- The closed set of recognized client event types, from the event_type
union and isValidEventType in app/api/client-log/route.ts. -/
def knownClientEventTypes : List String :=
  ["page_view", "start_button_click", "ai_consult_click", "item_stage",
   "ai_consult_snapshot", "reservation_click", "question_shown", "answer",
   "result_shown", "click", "kpi_first_response", "ui_impression", "ui_click"]

def hasKnownEventTag (e : MLogEntry) : Bool :=
  match e.eventType with
  | some t => knownClientEventTypes.contains t
  | none => false

/-- Modelled from the spec: shouldForwardToAws is absent from the available
sources. error and warn always forward; debug never forwards; info forwards
only for the allow-listed endpoint+message combination (the client-log
ingestion event) whose payload carries a recognized event-type tag from the
closed set. -/
def shouldForwardToAws (e : MLogEntry) : Bool :=
  match e.level with
  | Level.error => true
  | Level.warn => true
  | Level.debug => false
  | Level.info =>
    e.endpoint = "/api/client-log" && e.message = "Client event received"
      && hasKnownEventTag e

/-- Dedupe signature: endpoint, level, message and the truncated data
serialization, per the spec sentence on duplicate suppression. The data cap
is the 6000-byte data budget of sanitizeLogEntry in logger.ts. -/
structure LogSignature where
  endpoint : String
  level : Level
  message : String
  dataTrunc : String
deriving DecidableEq, Repr

def signatureOf (e : MLogEntry) : LogSignature :=
  { endpoint := e.endpoint, level := e.level, message := e.message,
    dataTrunc := truncateString (e.data.getD "") 6000 }

/-- The dedupe table maps a signature to the instant it was last forwarded. -/
abbrev DedupeState : Type := List (LogSignature × Nat)

/-- Modelled from the spec: the duplicate-suppression step is absent from the
available sources. If the same signature was forwarded within the window, the
forward is suppressed and the table is untouched; otherwise the entry
forwards and the table records this instant for its signature. -/
def dedupeStep (window : Nat) (st : DedupeState) (sig : LogSignature) (now : Nat) :
    Bool × DedupeState :=
  match alookup st sig with
  | some last => if now < last + window then (false, st) else (true, aset st sig now)
  | none => (true, aset st sig now)

structure LogOutcome where
  printedLocally : Bool
  forwarded : Bool
  dedupe : DedupeState

/-- Modelled from the spec: the per-call forwarding pipeline. The entry is
always printed locally; it is offered to the remote sink only when eligible,
and info-level entries additionally pass duplicate suppression. -/
def processLog (window : Nat) (st : DedupeState) (e : MLogEntry) (now : Nat) :
    LogOutcome :=
  if shouldForwardToAws e then
    if e.level = Level.info then
      let r := dedupeStep window st (signatureOf e) now
      { printedLocally := true, forwarded := r.1, dedupe := r.2 }
    else { printedLocally := true, forwarded := true, dedupe := st }
  else { printedLocally := true, forwarded := false, dedupe := st }

/-! ### Classification -/

inductive LogClass
  | user_event
  | schema_mismatch
  | security_reject
  | rate_limited
  | retry_exhausted
  | external_dependency_failure
  | api_failure
  | api_latency_slow
  | operational
deriving DecidableEq, Repr

structure AwsLogClassification where
  log_class : LogClass
  event_name : String
  severity : Level
  endpoint : String
  duration_ms : Option Nat
deriving DecidableEq, Repr

def listStartsWith : List Char → List Char → Bool
  | [], _ => true
  | _ :: _, [] => false
  | p :: ps, c :: cs => (p == c) && listStartsWith ps cs

def listHasSub (pat : List Char) : List Char → Bool
  | [] => listStartsWith pat []
  | c :: cs => listStartsWith pat (c :: cs) || listHasSub pat cs

/-- Substring test over the character lists of the two strings. -/
def containsSub (s pat : String) : Bool := listHasSub pat.toList s.toList

/-- Modelled from the spec: rule 1, an explicit client event (client-log
endpoint with a known event-type tag). -/
def matchesUserEvent (e : MLogEntry) : Bool :=
  e.endpoint = "/api/client-log" && hasKnownEventTag e

/-- Modelled from the spec: rule 2, a schema or validation warning. -/
def matchesSchemaMismatch (e : MLogEntry) : Bool :=
  if e.level = Level.warn then
    containsSub e.message "rejected" || containsSub e.message "Invalid"
      || containsSub e.message "validation"
  else false

/-- Modelled from the spec: rule 3, a security rejection such as a
disallowed network target. -/
def matchesSecurityReject (e : MLogEntry) : Bool :=
  containsSub e.message "disallowed" || containsSub e.message "Blocked"
    || containsSub e.message "security"

/-- Modelled from the spec: rule 4, a rate-limit mention. -/
def matchesRateLimited (e : MLogEntry) : Bool :=
  containsSub e.message "Rate limit" || containsSub e.message "rate limit"
    || containsSub e.message "429"

/-- Modelled from the spec: rule 5, a retry-exhaustion error, matching the
terminal message of the retry helper. -/
def matchesRetryExhausted (e : MLogEntry) : Bool :=
  if e.level = Level.error then containsSub e.message "failed after" else false

/-- Modelled from the spec: rule 6, a recognized external-dependency error
pattern on an error entry. -/
def matchesExternalDependency (e : MLogEntry) : Bool :=
  if e.level = Level.error then
    containsSub e.message "OpenAI" || containsSub e.message "timeout"
      || containsSub e.message "ECONNRESET" || containsSub e.message "fetch failed"
      || containsSub e.message "AbortError"
  else false

def isSlowEntry (slowMs : Nat) (e : MLogEntry) : Bool :=
  if e.level = Level.warn then
    match e.durationMs with
    | some d => slowMs ≤ d
    | none => false
  else false

/-- Modelled from the spec: the pure classification function, first matching
rule wins, rules checked in the stated order. slowMs is the slow-request
threshold (environment key AWS_LOG_SLOW_THRESHOLD_MS, default 3000, read
through getSlowThresholdMs in app/lib/log-fields.ts). -/
def classifyLogForAws (slowMs : Nat) (e : MLogEntry) : AwsLogClassification :=
  let cls :=
    if matchesUserEvent e then LogClass.user_event
    else if matchesSchemaMismatch e then LogClass.schema_mismatch
    else if matchesSecurityReject e then LogClass.security_reject
    else if matchesRateLimited e then LogClass.rate_limited
    else if matchesRetryExhausted e then LogClass.retry_exhausted
    else if matchesExternalDependency e then LogClass.external_dependency_failure
    else if e.level = Level.error then LogClass.api_failure
    else if isSlowEntry slowMs e then LogClass.api_latency_slow
    else LogClass.operational
  { log_class := cls, event_name := e.eventType.getD e.message,
    severity := e.level, endpoint := e.endpoint, duration_ms := e.durationMs }

/-- The JSON payload POSTed to the remote sink: the sanitized entry together
with its attached aws_meta classification. -/
structure ForwardedPayload where
  entry : MLogEntry
  aws_meta : AwsLogClassification
deriving DecidableEq, Repr

/-- Modelled from the spec: every forwarded payload is built by attaching the
classification computed from the entry. -/
def buildForwardPayload (slowMs : Nat) (e : MLogEntry) : ForwardedPayload :=
  { entry := e, aws_meta := classifyLogForAws slowMs e }

/-! ## Global registries (getCircuitBreaker, getRateLimiter, getCache)

Named singletons: the first call for a name constructs the instance from the
options passed then; every later call returns the stored instance, whatever
options it passes. Option bags arrive with every field optional; the
breaker and limiter merge them over defaults by object spread (an explicit
field always wins), the cache applies the JS truthy-or (an explicit 0 falls
back to the default).
-/

structure CBOptionsInput where
  failureThreshold : Option Nat := none
  successThreshold : Option Nat := none
  timeout : Option Nat := none
  resetTimeout : Option Nat := none
deriving DecidableEq, Repr

def resolveCBOptions (i : CBOptionsInput) : CBOptions :=
  { failureThreshold := i.failureThreshold.getD 5,
    successThreshold := i.successThreshold.getD 2,
    timeout := i.timeout.getD 10000,
    resetTimeout := i.resetTimeout.getD 60000 }

structure CircuitBreakerInstance where
  name : String
  options : CBOptions
  st : CBState
deriving DecidableEq, Repr

def CircuitBreaker.create (name : String) (i : CBOptionsInput) (now : Nat) :
    CircuitBreakerInstance :=
  { name := name, options := resolveCBOptions i, st := CircuitBreaker.initState now }

def getCircuitBreaker (reg : List (String × CircuitBreakerInstance))
    (name : String) (i : CBOptionsInput) (now : Nat) :
    CircuitBreakerInstance × List (String × CircuitBreakerInstance) :=
  match alookup reg name with
  | some b => (b, reg)
  | none =>
    let b := CircuitBreaker.create name i now
    (b, aset reg name b)

structure RLOptionsInput where
  maxTokens : Option Nat := none
  refillRate : Option Nat := none
  refillInterval : Option Nat := none
deriving DecidableEq, Repr

def resolveRLOptions (i : RLOptionsInput) : RLOptions :=
  { maxTokens := i.maxTokens.getD 10,
    refillRate := i.refillRate.getD 1,
    refillInterval := i.refillInterval.getD 1000 }

structure RateLimiterInstance where
  name : String
  options : RLOptions
  st : RLState
deriving DecidableEq, Repr

def RateLimiter.create (name : String) (i : RLOptionsInput) (now : Nat) :
    RateLimiterInstance :=
  let o := resolveRLOptions i
  { name := name, options := o, st := RateLimiter.initState o now }

def getRateLimiter (reg : List (String × RateLimiterInstance))
    (name : String) (i : RLOptionsInput) (now : Nat) :
    RateLimiterInstance × List (String × RateLimiterInstance) :=
  match alookup reg name with
  | some r => (r, reg)
  | none =>
    let r := RateLimiter.create name i now
    (r, aset reg name r)

structure CacheOptionsInput where
  ttl : Option Nat := none
  maxSize : Option Nat := none
deriving DecidableEq, Repr

def resolveCacheOptions (i : CacheOptionsInput) : CacheOptions :=
  { ttl := jsOrOpt i.ttl DEFAULT_TTL, maxSize := jsOrOpt i.maxSize DEFAULT_MAX_SIZE }

structure CacheInstance (T : Type) where
  options : CacheOptions
  st : CacheState T
deriving DecidableEq, Repr

def Cache.create {T : Type} (i : CacheOptionsInput) : CacheInstance T :=
  { options := resolveCacheOptions i, st := { entries := [], accessOrder := [] } }

def getCache {T : Type} (reg : List (String × CacheInstance T))
    (name : String) (i : CacheOptionsInput) :
    CacheInstance T × List (String × CacheInstance T) :=
  match alookup reg name with
  | some c => (c, reg)
  | none =>
    let c := Cache.create i
    (c, aset reg name c)

/-! ## Concrete default configurations and sample runs -/

def defaultCBOptions : CBOptions :=
  { failureThreshold := 5, successThreshold := 2, timeout := 10000, resetTimeout := 60000 }

def defaultRLOptions : RLOptions :=
  { maxTokens := 10, refillRate := 1, refillInterval := 1000 }

def defaultRetryOptions : RetryOptions :=
  { maxRetries := 3, retryableStatuses := defaultRetryableStatuses }

/-- The breaker state reached from a fresh breaker by five consecutive
failing calls at instant 0 under the default options: OPEN with
nextAttempt 60000. -/
def cbAfterFiveFailures : CBState :=
  CircuitBreaker.execState defaultCBOptions
    (CircuitBreaker.execState defaultCBOptions
      (CircuitBreaker.execState defaultCBOptions
        (CircuitBreaker.execState defaultCBOptions
          (CircuitBreaker.execState defaultCBOptions
            (CircuitBreaker.initState 0) 0 CallOutcome.failure)
          0 CallOutcome.failure)
        0 CallOutcome.failure)
      0 CallOutcome.failure)
    0 CallOutcome.failure

/-- The state after the cooldown elapses and one successful call runs:
HALF_OPEN with one recorded success and failureCount reset to 0. -/
def cbHalfOpenAfterSuccess : CBState :=
  CircuitBreaker.execState defaultCBOptions cbAfterFiveFailures 60000 CallOutcome.success

/-- A concrete two-entry cache at capacity: insertion order A then B, but
access order B then A after A was refreshed, so B is least recently used. -/
def sampleLruState : CacheState Nat :=
  { entries := [("A", { value := 1, expiresAt := 100 }),
                ("B", { value := 2, expiresAt := 100 })],
    accessOrder := ["B", "A"] }

/-- A forward-eligible info entry: the client-log ingestion event carrying a
recognized event-type tag. -/
def sampleClientEvent : MLogEntry :=
  { level := Level.info, message := "Client event received",
    endpoint := "/api/client-log", data := some "payload",
    eventType := some "click", durationMs := none }

/-- An error entry whose message matches an external-dependency pattern and
no earlier classification rule. -/
def sampleExternalError : MLogEntry :=
  { level := Level.error, message := "OpenAI request timeout",
    endpoint := "/api/chat", data := none, eventType := none,
    durationMs := some 1200 }

/-- A warn entry above the slow threshold matching no earlier rule. -/
def sampleSlowWarn : MLogEntry :=
  { level := Level.warn, message := "Chat API slow response",
    endpoint := "/api/chat", data := none, eventType := none,
    durationMs := some 5000 }

/-! # Theorems -/

/-- C10: for a registry name that already holds an instance, a later call to
getCircuitBreaker, getRateLimiter or getCache returns the stored instance
unchanged and leaves the registry untouched, whatever options the later call
passes; options after the first call therefore have no effect. -/
theorem registry_first_call_wins {T : Type}
    (regB : List (String × CircuitBreakerInstance))
    (regL : List (String × RateLimiterInstance))
    (regC : List (String × CacheInstance T))
    (name : String) (iB : CBOptionsInput) (iL : RLOptionsInput)
    (iC : CacheOptionsInput) (now : Nat)
    (b : CircuitBreakerInstance) (r : RateLimiterInstance) (c : CacheInstance T)
    (hb : alookup regB name = some b)
    (hr : alookup regL name = some r)
    (hc : alookup regC name = some c) :
    getCircuitBreaker regB name iB now = (b, regB) ∧
    getRateLimiter regL name iL now = (r, regL) ∧
    getCache regC name iC = (c, regC) := by
  refine ⟨?_, ?_, ?_⟩ <;> simp [getCircuitBreaker, getRateLimiter, getCache, hb, hr, hc]

theorem registry_first_call_wins_witness :
    getCircuitBreaker [("x", CircuitBreaker.create "x" {} 0)] "x"
        { failureThreshold := some 1 } 7
      = (CircuitBreaker.create "x" {} 0, [("x", CircuitBreaker.create "x" {} 0)]) ∧
    getRateLimiter [("x", RateLimiter.create "x" {} 0)] "x"
        { maxTokens := some 99 } 7
      = (RateLimiter.create "x" {} 0, [("x", RateLimiter.create "x" {} 0)]) ∧
    getCache [("x", Cache.create (T := Nat) {})] "x" { maxSize := some 1 }
      = (Cache.create {}, [("x", Cache.create {})]) :=
  registry_first_call_wins _ _ _ "x" _ _ _ 7 _ _ _ (by decide) (by decide) (by decide)

/-- C4 counterexample: under the default breaker options, a breaker opened by
five failures, brought to HALF_OPEN by a successful call after the cooldown,
does NOT reopen on the next failing call: onSuccess reset failureCount to 0,
so the failure leaves failureCount at 1, below the threshold of 5, and the
breaker stays HALF_OPEN instead of returning to OPEN. -/
theorem cb_halfopen_failure_counterexample :
    cbHalfOpenAfterSuccess.state = CircuitState.HALF_OPEN ∧
    (CircuitBreaker.execute defaultCBOptions cbHalfOpenAfterSuccess 60001
        CallOutcome.failure).1 = ExecResult.ran CallOutcome.failure ∧
    ¬ (CircuitBreaker.execState defaultCBOptions cbHalfOpenAfterSuccess 60001
        CallOutcome.failure).state = CircuitState.OPEN ∧
    (CircuitBreaker.execState defaultCBOptions cbHalfOpenAfterSuccess 60001
        CallOutcome.failure).state = CircuitState.HALF_OPEN := by
  decide

/-- C4 amended: a failing execute call in HALF_OPEN reopens the breaker with
a fresh cooldown (nextAttempt = now + resetTimeout) exactly when the
incremented failureCount reaches failureThreshold. This covers a HALF_OPEN
episode with no recorded success (failureCount keeps its pre-open value, at
least the threshold), but after any success in the episode failureCount is 0
and a single failure leaves the breaker HALF_OPEN whenever the threshold
exceeds one. -/
theorem cb_halfopen_failure_amended (o : CBOptions) (s : CBState) (now : Nat)
    (hHalf : s.state = CircuitState.HALF_OPEN) :
    (CircuitBreaker.execute o s now CallOutcome.failure).1
      = ExecResult.ran CallOutcome.failure ∧
    (o.failureThreshold ≤ s.failureCount + 1 →
      (CircuitBreaker.execState o s now CallOutcome.failure).state = CircuitState.OPEN ∧
      (CircuitBreaker.execState o s now CallOutcome.failure).nextAttempt
        = now + o.resetTimeout) ∧
    (s.failureCount + 1 < o.failureThreshold →
      (CircuitBreaker.execState o s now CallOutcome.failure).state
        = CircuitState.HALF_OPEN) := by
  have hNotOpen : ¬ s.state = CircuitState.OPEN := by
    rw [hHalf]; intro h; cases h
  refine ⟨?_, ?_, ?_⟩
  · simp [CircuitBreaker.execute, hNotOpen]
  · intro hth
    simp [CircuitBreaker.execState, CircuitBreaker.execute, hNotOpen,
      CircuitBreaker.onFailure, hth]
  · intro hth
    simp [CircuitBreaker.execState, CircuitBreaker.execute, hNotOpen,
      CircuitBreaker.onFailure, Nat.not_le.mpr hth, hHalf]

theorem cb_halfopen_failure_amended_witness :
    (CircuitBreaker.execute defaultCBOptions
        { state := CircuitState.HALF_OPEN, failureCount := 5, successCount := 0,
          nextAttempt := 60000 } 60000 CallOutcome.failure).1
      = ExecResult.ran CallOutcome.failure ∧
    (defaultCBOptions.failureThreshold ≤ 5 + 1 →
      (CircuitBreaker.execState defaultCBOptions
          { state := CircuitState.HALF_OPEN, failureCount := 5, successCount := 0,
            nextAttempt := 60000 } 60000 CallOutcome.failure).state
        = CircuitState.OPEN ∧
      (CircuitBreaker.execState defaultCBOptions
          { state := CircuitState.HALF_OPEN, failureCount := 5, successCount := 0,
            nextAttempt := 60000 } 60000 CallOutcome.failure).nextAttempt
        = 60000 + defaultCBOptions.resetTimeout) ∧
    (5 + 1 < defaultCBOptions.failureThreshold →
      (CircuitBreaker.execState defaultCBOptions
          { state := CircuitState.HALF_OPEN, failureCount := 5, successCount := 0,
            nextAttempt := 60000 } 60000 CallOutcome.failure).state
        = CircuitState.HALF_OPEN) :=
  cb_halfopen_failure_amended defaultCBOptions
    { state := CircuitState.HALF_OPEN, failureCount := 5, successCount := 0,
      nextAttempt := 60000 } 60000 rfl

/-- C5 counterexample: from a fresh default rate limiter (maxTokens 10), the
single-operation sequence acquire(11) completes with tokens = -1, breaking
the invariant 0 <= tokens: the post-wait refill clamps the bucket to
maxTokens and the acquire then deducts the full request unconditionally. -/
theorem rl_invariant_counterexample :
    (RateLimiter.runOps defaultRLOptions (RateLimiter.initState defaultRLOptions 0, 0)
        [(0, RLAction.acquire 11)]).1.tokens = -1 ∧
    ¬ (0 ≤ (RateLimiter.runOps defaultRLOptions
        (RateLimiter.initState defaultRLOptions 0, 0)
        [(0, RLAction.acquire 11)]).1.tokens) := by
  decide

/-- C6: when a fully failed delivery brings the process-wide consecutive
failure counter to the threshold of 5, the forwarding state enters a cooldown
of cooldownMs (default 60000); while the clock is inside that window every
send is skipped outright, making zero delivery attempts and leaving the
state untouched; and any send whose attempt loop succeeds leaves the counter
at zero. -/
theorem aws_cooldown_and_reset (cfg : AwsForwardConfig) (st : AwsForwardState)
    (now : Nat) (f : Nat → AttemptOutcome)
    (hconf : cfg.configured = true)
    (hact : st.lambdaDisabledUntil ≤ now)
    (hcnt : 4 ≤ st.consecutiveLambdaFailures)
    (hfail : (Logger.awsAttempts cfg f).1 = false) :
    (Logger.sendToAwsLambda cfg st now f).2 =
      { consecutiveLambdaFailures := 0, lambdaDisabledUntil := now + cfg.cooldownMs } ∧
    (∀ t2 f2, t2 < now + cfg.cooldownMs →
      Logger.sendToAwsLambda cfg (Logger.sendToAwsLambda cfg st now f).2 t2 f2 =
        (0, (Logger.sendToAwsLambda cfg st now f).2)) ∧
    (∀ st2 now2 f2, (Logger.awsAttempts cfg f2).1 = true →
      st2.lambdaDisabledUntil ≤ now2 →
      (Logger.sendToAwsLambda cfg st2 now2 f2).2.consecutiveLambdaFailures = 0) := by
  have hnl : ¬ now < st.lambdaDisabledUntil := Nat.not_lt.mpr hact
  have h5 : 5 ≤ st.consecutiveLambdaFailures + 1 := by omega
  have hstate : (Logger.sendToAwsLambda cfg st now f).2 =
      { consecutiveLambdaFailures := 0, lambdaDisabledUntil := now + cfg.cooldownMs } := by
    simp [Logger.sendToAwsLambda, hconf, hnl, hfail, h5]
  refine ⟨hstate, ?_, ?_⟩
  · intro t2 f2 ht2
    rw [hstate]
    simp [Logger.sendToAwsLambda, hconf, ht2]
  · intro st2 now2 f2 hok hact2
    simp [Logger.sendToAwsLambda, hconf, Nat.not_lt.mpr hact2, hok]

theorem aws_cooldown_and_reset_witness :
    (Logger.sendToAwsLambda
        { configured := true, timeoutMs := 15000, maxAttempts := 2, cooldownMs := 60000 }
        { consecutiveLambdaFailures := 4, lambdaDisabledUntil := 0 } 100
        (fun _ => AttemptOutcome.exn)).2 =
      { consecutiveLambdaFailures := 0, lambdaDisabledUntil := 100 + 60000 } ∧
    (∀ t2 f2, t2 < 100 + (60000 : Nat) →
      Logger.sendToAwsLambda
          { configured := true, timeoutMs := 15000, maxAttempts := 2, cooldownMs := 60000 }
          (Logger.sendToAwsLambda
            { configured := true, timeoutMs := 15000, maxAttempts := 2, cooldownMs := 60000 }
            { consecutiveLambdaFailures := 4, lambdaDisabledUntil := 0 } 100
            (fun _ => AttemptOutcome.exn)).2 t2 f2 =
        (0, (Logger.sendToAwsLambda
          { configured := true, timeoutMs := 15000, maxAttempts := 2, cooldownMs := 60000 }
          { consecutiveLambdaFailures := 4, lambdaDisabledUntil := 0 } 100
          (fun _ => AttemptOutcome.exn)).2)) ∧
    (∀ (st2 : AwsForwardState) (now2 : Nat) (f2 : Nat → AttemptOutcome),
      (Logger.awsAttempts
        { configured := true, timeoutMs := 15000, maxAttempts := 2, cooldownMs := 60000 }
        f2).1 = true →
      st2.lambdaDisabledUntil ≤ now2 →
      (Logger.sendToAwsLambda
        { configured := true, timeoutMs := 15000, maxAttempts := 2, cooldownMs := 60000 }
        st2 now2 f2).2.consecutiveLambdaFailures = 0) :=
  aws_cooldown_and_reset
    { configured := true, timeoutMs := 15000, maxAttempts := 2, cooldownMs := 60000 }
    { consecutiveLambdaFailures := 4, lambdaDisabledUntil := 0 } 100
    (fun _ => AttemptOutcome.exn) rfl (by decide) (by decide) (by decide)

/-- C7: fetchWithRetry with maxRetries 3 and the default retryable set, run
against a work unit answering 503 on the first two attempts and 200 on the
third, returns the success after exactly 3 invocations; run against a work
unit answering 404, it returns the 404 response as a value (not a thrown
error) after exactly 1 invocation. -/
theorem fetchWithRetry_scenarios (f g : Nat → FetchOutcome)
    (hf1 : f 1 = FetchOutcome.resp 503) (hf2 : f 2 = FetchOutcome.resp 503)
    (hf3 : f 3 = FetchOutcome.resp 200) (hg1 : g 1 = FetchOutcome.resp 404) :
    fetchWithRetry defaultRetryOptions f = RetryResult.success 200 3 ∧
    fetchWithRetry defaultRetryOptions g = RetryResult.returnedResponse 404 1 := by
  constructor
  · simp [fetchWithRetry, retryGo, hf1, hf2, hf3, responseOk, isRetryableError,
      defaultRetryOptions, defaultRetryableStatuses]
  · simp [fetchWithRetry, retryGo, hg1, responseOk, isRetryableError,
      defaultRetryOptions, defaultRetryableStatuses]

theorem fetchWithRetry_scenarios_witness :
    fetchWithRetry defaultRetryOptions
        (fun n => if n ≤ 2 then FetchOutcome.resp 503 else FetchOutcome.resp 200)
      = RetryResult.success 200 3 ∧
    fetchWithRetry defaultRetryOptions (fun _ => FetchOutcome.resp 404)
      = RetryResult.returnedResponse 404 1 :=
  fetchWithRetry_scenarios
    (fun n => if n ≤ 2 then FetchOutcome.resp 503 else FetchOutcome.resp 200)
    (fun _ => FetchOutcome.resp 404) (by decide) (by decide) (by decide) rfl

theorem Cache.get_absent {T : Type} (s : CacheState T) (k : String) (now : Nat)
    (h : alookup s.entries k = none) : Cache.get s k now = (none, s) := by
  simp [Cache.get, h]

theorem Cache.get_hit {T : Type} (s : CacheState T) (k : String) (now : Nat)
    (e : CacheEntry T) (hk : alookup s.entries k = some e)
    (hfresh : ¬ now > e.expiresAt) :
    Cache.get s k now =
      (some e.value,
       { entries := s.entries,
         accessOrder := s.accessOrder.filter (fun a => a != k) ++ [k] }) := by
  simp [Cache.get, hk, hfresh]

theorem Cache.set_evicting {T : Type} (opts : CacheOptions) (s : CacheState T)
    (k : String) (v : T) (ttl : Option Nat) (now : Nat)
    (old : String) (tail : List String)
    (hord : s.accessOrder = old :: tail)
    (hlen : opts.maxSize ≤ s.entries.length)
    (habs : alookup s.entries k = none) :
    Cache.set opts s k v ttl now =
      { entries := aset (s.entries.filter (fun p => p.1 != old)) k
          { value := v, expiresAt := now + jsOrOpt ttl opts.ttl },
        accessOrder := tail.filter (fun a => a != k) ++ [k] } := by
  simp [Cache.set, Cache.evictOldest, hord, hlen, habs]

/-- C8: with the cache at capacity, inserting a fresh key evicts exactly the
head of the access order, which is the least-recently-touched key; recency is
refreshed by get, not fixed by insertion order: after touching A via get, a
past-capacity insert evicts the least-recently-used key B while A, the new
key, and every other resident key survive. -/
theorem cache_lru_eviction {T : Type} (opts : CacheOptions) (s : CacheState T)
    (A B newk : String) (eA : CacheEntry T) (v : T) (ttl : Option Nat)
    (now now2 : Nat) (rest : List String)
    (hord : s.accessOrder = B :: rest)
    (hA : alookup s.entries A = some eA)
    (hfresh : now ≤ eA.expiresAt)
    (hnew : alookup s.entries newk = none)
    (hcap : s.entries.length = opts.maxSize)
    (hAB : A ≠ B) (hkA : newk ≠ A) (hkB : newk ≠ B) :
    (Cache.get s A now).1 = some eA.value ∧
    (alookup (Cache.set opts (Cache.get s A now).2 newk v ttl now2).entries
      newk).isSome = true ∧
    alookup (Cache.set opts (Cache.get s A now).2 newk v ttl now2).entries A
      = some eA ∧
    alookup (Cache.set opts (Cache.get s A now).2 newk v ttl now2).entries B
      = none ∧
    (∀ k, k ≠ B → k ≠ newk →
      alookup (Cache.set opts (Cache.get s A now).2 newk v ttl now2).entries k
        = alookup s.entries k) := by
  have hnotexp : ¬ now > eA.expiresAt := Nat.not_lt.mpr hfresh
  have hget := Cache.get_hit s A now eA hA hnotexp
  have hBA : (B != A) = true := bne_iff_ne.mpr (Ne.symm hAB)
  have hord1 : s.accessOrder.filter (fun a => a != A) ++ [A]
      = B :: (rest.filter (fun a => a != A) ++ [A]) := by
    simp [hord, List.filter_cons, hBA]
  have hset := Cache.set_evicting opts
    { entries := s.entries,
      accessOrder := s.accessOrder.filter (fun a => a != A) ++ [A] }
    newk v ttl now2 B (rest.filter (fun a => a != A) ++ [A]) hord1
    (le_of_eq hcap.symm) hnew
  rw [hget]
  simp only [hset]
  refine ⟨by simp, ?_, ?_, ?_, ?_⟩
  · rw [alookup_aset_self]
    rfl
  · rw [alookup_aset_ne _ _ _ _ (Ne.symm hkA), alookup_filter_ne, if_neg hAB, hA]
  · rw [alookup_aset_ne _ _ _ _ (Ne.symm hkB), alookup_filter_ne, if_pos rfl]
  · intro k hkBne hknewk
    rw [alookup_aset_ne _ _ _ _ hknewk, alookup_filter_ne, if_neg hkBne]

theorem cache_lru_eviction_witness :
    (Cache.get sampleLruState "A" 10).1 = some (1 : Nat) ∧
    (alookup (Cache.set { ttl := 1000, maxSize := 2 }
      (Cache.get sampleLruState "A" 10).2 "C" 3 none 11).entries "C").isSome
      = true ∧
    alookup (Cache.set { ttl := 1000, maxSize := 2 }
      (Cache.get sampleLruState "A" 10).2 "C" 3 none 11).entries "A"
      = some { value := 1, expiresAt := 100 } ∧
    alookup (Cache.set { ttl := 1000, maxSize := 2 }
      (Cache.get sampleLruState "A" 10).2 "C" 3 none 11).entries "B"
      = none := by
  have h := cache_lru_eviction { ttl := 1000, maxSize := 2 } sampleLruState
    "A" "B" "C" { value := 1, expiresAt := 100 } 3 none 10 11 ["A"]
    (by decide) (by decide) (by decide) (by decide) (by decide)
    (by decide) (by decide) (by decide)
  exact ⟨h.1, h.2.1, h.2.2.1, h.2.2.2.1⟩

/-- C9 counterexample: a fetchWithCache miss caused by an expired entry both
propagates the producer error and changes the cache state, because the
lookup purges the expired entry; the claim that the cache state is unchanged
by the failed call is therefore false as stated. -/
theorem fetchWithCache_state_change_counterexample :
    (Cache.get
        ({ entries := [("k", { value := 0, expiresAt := 5 })],
           accessOrder := ["k"] } : CacheState Nat) "k" 10).1 = none ∧
    (fetchWithCache { ttl := 300000, maxSize := 100 }
        ({ entries := [("k", { value := 0, expiresAt := 5 })],
           accessOrder := ["k"] } : CacheState Nat)
        "k" (Except.error "boom") none 10).1 = Except.error "boom" ∧
    ¬ ((fetchWithCache { ttl := 300000, maxSize := 100 }
        ({ entries := [("k", { value := 0, expiresAt := 5 })],
           accessOrder := ["k"] } : CacheState Nat)
        "k" (Except.error "boom") none 10).2 =
      ({ entries := [("k", { value := 0, expiresAt := 5 })],
         accessOrder := ["k"] } : CacheState Nat)) := by
  refine ⟨rfl, rfl, ?_⟩
  decide

/-- C9 amended: on a cache miss fetchWithCache propagates the producer error
unchanged and never caches the failure: afterwards the key is absent, so any
later call for it re-invokes its producer and returns that producer outcome;
when the key was absent (rather than expired) the cache state is exactly
unchanged, and when the miss was due to an expired entry the only state
change is the lazy purge of that entry performed by the lookup itself. -/
theorem fetchWithCache_failure_not_cached {T ε : Type} (opts : CacheOptions)
    (s : CacheState T) (k : String) (err : ε) (ttl : Option Nat) (now : Nat)
    (hmiss : (Cache.get s k now).1 = none) :
    (fetchWithCache opts s k (Except.error err) ttl now).1 = Except.error err ∧
    alookup (fetchWithCache opts s k (Except.error err) ttl now).2.entries k
      = none ∧
    (alookup s.entries k = none →
      (fetchWithCache opts s k (Except.error err) ttl now).2 = s) ∧
    (∀ (p : Except ε T) (ttl2 now2 : Nat → Nat) (j : Nat),
      (fetchWithCache opts (fetchWithCache opts s k (Except.error err) ttl now).2
        k p (some (ttl2 j)) (now2 j)).1 = p) := by
  cases hlook : alookup s.entries k with
  | none =>
    have hget := Cache.get_absent s k now hlook
    refine ⟨?_, ?_, ?_, ?_⟩
    · simp [fetchWithCache, hget]
    · simp [fetchWithCache, hget, hlook]
    · intro _
      simp [fetchWithCache, hget]
    · intro p ttl2 now2 j
      have hstate : (fetchWithCache opts s k (Except.error err) ttl now).2 = s := by
        simp [fetchWithCache, hget]
      rw [hstate]
      cases p <;> simp [fetchWithCache, Cache.get_absent s k (now2 j) hlook]
  | some e =>
    have hexp : now > e.expiresAt := by
      by_contra hne
      have := Cache.get_hit s k now e hlook hne
      rw [this] at hmiss
      simp at hmiss
    have hget : Cache.get s k now =
        (none, { entries := s.entries.filter (fun p => p.1 != k),
                 accessOrder := s.accessOrder.filter (fun a => a != k) }) := by
      simp [Cache.get, hlook, hexp]
    have habs : alookup (s.entries.filter (fun p => p.1 != k)) k = none := by
      rw [alookup_filter_ne, if_pos rfl]
    refine ⟨?_, ?_, ?_, ?_⟩
    · simp [fetchWithCache, hget]
    · simp [fetchWithCache, hget, habs]
    · intro hcontra
      simp [hlook] at hcontra
    · intro p ttl2 now2 j
      have hstate : (fetchWithCache opts s k (Except.error err) ttl now).2 =
          { entries := s.entries.filter (fun p => p.1 != k),
            accessOrder := s.accessOrder.filter (fun a => a != k) } := by
        simp [fetchWithCache, hget]
      rw [hstate]
      have hget2 := Cache.get_absent
        ({ entries := s.entries.filter (fun p => p.1 != k),
           accessOrder := s.accessOrder.filter (fun a => a != k) } : CacheState T)
        k (now2 j) habs
      cases p <;> simp [fetchWithCache, hget2]

theorem fetchWithCache_failure_not_cached_witness :
    (fetchWithCache { ttl := 300000, maxSize := 100 }
        ({ entries := [], accessOrder := [] } : CacheState Nat)
        "k" (Except.error "boom") none 10).1
      = (Except.error "boom" : Except String Nat) ∧
    alookup (fetchWithCache { ttl := 300000, maxSize := 100 }
        ({ entries := [], accessOrder := [] } : CacheState Nat)
        "k" (Except.error "boom") none 10).2.entries "k" = none ∧
    (alookup ({ entries := [], accessOrder := [] } : CacheState Nat).entries "k"
        = none →
      (fetchWithCache { ttl := 300000, maxSize := 100 }
        ({ entries := [], accessOrder := [] } : CacheState Nat)
        "k" (Except.error "boom") none 10).2
      = ({ entries := [], accessOrder := [] } : CacheState Nat)) ∧
    (∀ (p : Except String Nat) (ttl2 now2 : Nat → Nat) (j : Nat),
      (fetchWithCache { ttl := 300000, maxSize := 100 }
        (fetchWithCache { ttl := 300000, maxSize := 100 }
          ({ entries := [], accessOrder := [] } : CacheState Nat)
          "k" (Except.error "boom") none 10).2
        "k" p (some (ttl2 j)) (now2 j)).1 = p) :=
  fetchWithCache_failure_not_cached { ttl := 300000, maxSize := 100 }
    { entries := [], accessOrder := [] } "k" "boom" none 10 rfl

theorem processLog_printedLocally (w : Nat) (st : DedupeState) (e : MLogEntry)
    (now : Nat) : (processLog w st e now).printedLocally = true := by
  unfold processLog
  split
  · split <;> rfl
  · rfl

theorem processLog_not_forwarded (w : Nat) (st : DedupeState) (e : MLogEntry)
    (now : Nat) (h : shouldForwardToAws e = false) :
    (processLog w st e now).forwarded = false := by
  simp [processLog, h]

/-- C2: error and warn entries are always eligible for remote forwarding,
debug entries never are, and an info entry is eligible exactly when it is the
allow-listed client-log ingestion event carrying a recognized event-type tag
from the closed set; every entry is printed locally, and an ineligible entry
is never forwarded. -/
theorem shouldForward_level_policy (w : Nat) (st : DedupeState) (now : Nat)
    (e : MLogEntry) :
    ((e.level = Level.error ∨ e.level = Level.warn) → shouldForwardToAws e = true) ∧
    (e.level = Level.debug → shouldForwardToAws e = false) ∧
    (e.level = Level.info →
      (shouldForwardToAws e = true ↔
        e.endpoint = "/api/client-log" ∧ e.message = "Client event received" ∧
          hasKnownEventTag e = true)) ∧
    (processLog w st e now).printedLocally = true ∧
    (shouldForwardToAws e = false → (processLog w st e now).forwarded = false) := by
  refine ⟨?_, ?_, ?_, processLog_printedLocally w st e now,
    processLog_not_forwarded w st e now⟩
  · intro h
    rcases h with h | h <;> simp [shouldForwardToAws, h]
  · intro h
    simp [shouldForwardToAws, h]
  · intro h
    simp [shouldForwardToAws, h, Bool.and_eq_true, decide_eq_true_eq, and_assoc]

theorem shouldForward_level_policy_witness :
    shouldForwardToAws sampleClientEvent = true ∧
    shouldForwardToAws sampleExternalError = true ∧
    (processLog 5000 [] sampleClientEvent 0).printedLocally = true := by
  have h1 := shouldForward_level_policy 5000 [] 0 sampleClientEvent
  have h2 := shouldForward_level_policy 5000 [] 0 sampleExternalError
  exact ⟨(h1.2.2.1 rfl).mpr ⟨rfl, rfl, by decide⟩, h2.1 (Or.inl rfl), h1.2.2.2.1⟩

/-- C1: for a forward-eligible info entry with a fresh signature, the first
call forwards; an identical call within the dedupe window is suppressed, so
the pair yields exactly one forwarded payload; and a third identical call
made once the window has elapsed since the forwarded instant forwards
again. -/
theorem info_dedupe_window (w : Nat) (st : DedupeState) (e : MLogEntry)
    (t1 t2 t3 : Nat)
    (hinfo : e.level = Level.info)
    (helig : shouldForwardToAws e = true)
    (hfresh : alookup st (signatureOf e) = none)
    (hwin : t2 < t1 + w)
    (helapsed : t1 + w ≤ t3) :
    (processLog w st e t1).forwarded = true ∧
    (processLog w (processLog w st e t1).dedupe e t2).forwarded = false ∧
    (processLog w (processLog w (processLog w st e t1).dedupe e t2).dedupe
      e t3).forwarded = true := by
  have h1 : processLog w st e t1 =
      { printedLocally := true, forwarded := true,
        dedupe := aset st (signatureOf e) t1 } := by
    simp [processLog, helig, hinfo, dedupeStep, hfresh]
  have hsig : alookup (aset st (signatureOf e) t1) (signatureOf e) = some t1 :=
    alookup_aset_self st (signatureOf e) t1
  have h2 : processLog w (aset st (signatureOf e) t1) e t2 =
      { printedLocally := true, forwarded := false,
        dedupe := aset st (signatureOf e) t1 } := by
    simp [processLog, helig, hinfo, dedupeStep, hsig, hwin]
  have h3 : (processLog w (aset st (signatureOf e) t1) e t3).forwarded = true := by
    simp [processLog, helig, hinfo, dedupeStep, hsig, Nat.not_lt.mpr helapsed]
  refine ⟨?_, ?_, ?_⟩
  · rw [h1]
  · rw [h1]
    show (processLog w (aset st (signatureOf e) t1) e t2).forwarded = false
    rw [h2]
  · rw [h1]
    show (processLog w (processLog w (aset st (signatureOf e) t1) e t2).dedupe
      e t3).forwarded = true
    rw [h2]
    exact h3

theorem info_dedupe_window_witness :
    (processLog 5000 [] sampleClientEvent 0).forwarded = true ∧
    (processLog 5000 (processLog 5000 [] sampleClientEvent 0).dedupe
      sampleClientEvent 1000).forwarded = false ∧
    (processLog 5000 (processLog 5000 (processLog 5000 [] sampleClientEvent 0).dedupe
      sampleClientEvent 1000).dedupe sampleClientEvent 5000).forwarded = true :=
  info_dedupe_window 5000 [] sampleClientEvent 0 1000 5000 rfl (by decide) rfl
    (by decide) (by decide)

/-- C3: every forwarded payload carries the classification object computed by
the pure classification function, whose severity, endpoint and duration
fields restate the entry; under the first-match precedence rules, an error
entry matching an external-dependency pattern and no earlier rule classifies
as external_dependency_failure, and a warn entry above the slow threshold
matching no earlier rule classifies as api_latency_slow. -/
theorem classification_attached_and_rules (slowMs : Nat) (e : MLogEntry) :
    (buildForwardPayload slowMs e).aws_meta = classifyLogForAws slowMs e ∧
    (buildForwardPayload slowMs e).entry = e ∧
    (classifyLogForAws slowMs e).severity = e.level ∧
    (classifyLogForAws slowMs e).endpoint = e.endpoint ∧
    (classifyLogForAws slowMs e).duration_ms = e.durationMs ∧
    (e.level = Level.error → matchesUserEvent e = false →
      matchesSecurityReject e = false → matchesRateLimited e = false →
      matchesRetryExhausted e = false → matchesExternalDependency e = true →
      (classifyLogForAws slowMs e).log_class
        = LogClass.external_dependency_failure) ∧
    (∀ d : Nat, e.level = Level.warn → matchesUserEvent e = false →
      matchesSchemaMismatch e = false → matchesSecurityReject e = false →
      matchesRateLimited e = false → e.durationMs = some d → slowMs < d →
      (classifyLogForAws slowMs e).log_class = LogClass.api_latency_slow) := by
  refine ⟨rfl, rfl, rfl, rfl, rfl, ?_, ?_⟩
  · intro hlev h1 h3 h4 h5 h6
    have h2 : matchesSchemaMismatch e = false := by
      simp [matchesSchemaMismatch, hlev]
    simp [classifyLogForAws, h1, h2, h3, h4, h5, h6]
  · intro d hlev h1 h2 h3 h4 hdur hslow
    have h5 : matchesRetryExhausted e = false := by
      simp [matchesRetryExhausted, hlev]
    have h6 : matchesExternalDependency e = false := by
      simp [matchesExternalDependency, hlev]
    have h7 : ¬ e.level = Level.error := by
      rw [hlev]
      intro hc
      cases hc
    have h8 : isSlowEntry slowMs e = true := by
      simp [isSlowEntry, hlev, hdur, Nat.le_of_lt hslow]
    simp [classifyLogForAws, h1, h2, h3, h4, h5, h6, h7, h8]

theorem classification_rules_witness :
    (classifyLogForAws 3000 sampleExternalError).log_class
      = LogClass.external_dependency_failure ∧
    (classifyLogForAws 3000 sampleSlowWarn).log_class
      = LogClass.api_latency_slow := by
  have h1 := classification_attached_and_rules 3000 sampleExternalError
  have h2 := classification_attached_and_rules 3000 sampleSlowWarn
  exact ⟨h1.2.2.2.2.2.1 rfl (by decide) (by decide) (by decide) (by decide)
      (by decide),
    h2.2.2.2.2.2.2 5000 rfl (by decide) (by decide) (by decide) (by decide)
      rfl (by decide)⟩

theorem le_ceil_div_mul (a b : Nat) (hb : 0 < b) : a ≤ ((a + b - 1) / b) * b := by
  by_contra hcon
  push_neg at hcon
  have hx : ((a + b - 1) / b + 1) * b = ((a + b - 1) / b) * b + b := by ring
  have hstep : ((a + b - 1) / b + 1) * b ≤ a + b - 1 := by omega
  have hle := (Nat.le_div_iff_mul_le hb).mpr hstep
  omega

theorem one_le_ceil_div (a b : Nat) (hb : 0 < b) (ha : 0 < a) :
    1 ≤ (a + b - 1) / b := by
  rw [Nat.le_div_iff_mul_le hb]
  omega

theorem refill_tokens_bounds (o : RLOptions) (now : Nat) (s : RLState)
    (h0 : 0 ≤ s.tokens) (h1 : s.tokens ≤ (o.maxTokens : Int)) :
    0 ≤ (RateLimiter.refill o now s).tokens ∧
      (RateLimiter.refill o now s).tokens ≤ (o.maxTokens : Int) := by
  simp only [RateLimiter.refill]
  split
  · exact ⟨le_min (add_nonneg h0 (Int.natCast_nonneg _)) (Int.natCast_nonneg _),
      min_le_right _ _⟩
  · exact ⟨h0, h1⟩

theorem refill_lastRefill_le (o : RLOptions) (now : Nat) (s : RLState)
    (h : s.lastRefill ≤ now) : (RateLimiter.refill o now s).lastRefill ≤ now := by
  simp only [RateLimiter.refill]
  split
  · exact le_refl now
  · exact h

theorem acquire_preserves (o : RLOptions) (hrate : 0 < o.refillRate)
    (hint : 0 < o.refillInterval) (s : RLState) (now n : Nat)
    (h0 : 0 ≤ s.tokens) (h1 : s.tokens ≤ (o.maxTokens : Int))
    (hlr : s.lastRefill ≤ now) (hn : n ≤ o.maxTokens) :
    0 ≤ (RateLimiter.acquire o now n s).2.tokens ∧
    (RateLimiter.acquire o now n s).2.tokens ≤ (o.maxTokens : Int) ∧
    (RateLimiter.acquire o now n s).2.lastRefill ≤ (RateLimiter.acquire o now n s).1 := by
  obtain ⟨hb0, hb1⟩ := refill_tokens_bounds o now s h0 h1
  have hlr1 := refill_lastRefill_le o now s hlr
  simp only [RateLimiter.acquire]
  split
  next hfast =>
    refine ⟨?_, ?_, ?_⟩
    · show 0 ≤ (RateLimiter.refill o now s).tokens - (n : Int)
      omega
    · show (RateLimiter.refill o now s).tokens - (n : Int) ≤ (o.maxTokens : Int)
      omega
    · show (RateLimiter.refill o now s).lastRefill ≤ now
      exact hlr1
  next hslow =>
    set s1 := RateLimiter.refill o now s with hs1
    set tn := ((n : Int) - s1.tokens).toNat with htn
    set iv := (tn + o.refillRate - 1) / o.refillRate with hiv
    set wake := now + iv * o.refillInterval with hwake
    set s2 := RateLimiter.refill o wake s1 with hs2
    have hntn : (tn : Int) = (n : Int) - s1.tokens := by
      rw [htn]
      exact Int.toNat_of_nonneg (by omega)
    have htnpos : 0 < tn := by omega
    have hiv1 : 1 ≤ iv := by
      rw [hiv]
      exact one_le_ceil_div tn o.refillRate hrate htnpos
    have hivmul : tn ≤ iv * o.refillRate := by
      rw [hiv]
      exact le_ceil_div_mul tn o.refillRate hrate
    have hE : iv ≤ (wake - s1.lastRefill) / o.refillInterval := by
      rw [Nat.le_div_iff_mul_le hint]
      omega
    have hEpos : 0 < (wake - s1.lastRefill) / o.refillInterval := by omega
    have ht2 : s2.tokens =
        min (s1.tokens + (((wake - s1.lastRefill) / o.refillInterval
          * o.refillRate : Nat) : Int)) ((o.maxTokens : Nat) : Int) := by
      rw [hs2]
      simp only [RateLimiter.refill]
      rw [if_pos hEpos]
    have hlr2 : s2.lastRefill = wake := by
      rw [hs2]
      simp only [RateLimiter.refill]
      rw [if_pos hEpos]
    have hmul2 : iv * o.refillRate ≤
        (wake - s1.lastRefill) / o.refillInterval * o.refillRate :=
      Nat.mul_le_mul_right _ hE
    have hfinal : (n : Int) ≤ s2.tokens := by
      rw [ht2]
      refine le_min ?_ (by exact_mod_cast hn)
      have hc1 : (tn : Int) ≤
          (((wake - s1.lastRefill) / o.refillInterval * o.refillRate : Nat) : Int) := by
        exact_mod_cast le_trans hivmul hmul2
      omega
    have hub : s2.tokens ≤ (o.maxTokens : Int) := by
      rw [ht2]
      exact min_le_right _ _
    refine ⟨?_, ?_, ?_⟩
    · show 0 ≤ s2.tokens - (n : Int)
      omega
    · show s2.tokens - (n : Int) ≤ (o.maxTokens : Int)
      omega
    · show s2.lastRefill ≤ wake
      omega

theorem tryAcquire_preserves (o : RLOptions) (now n : Nat) (s : RLState)
    (h0 : 0 ≤ s.tokens) (h1 : s.tokens ≤ (o.maxTokens : Int))
    (hlr : s.lastRefill ≤ now) :
    0 ≤ (RateLimiter.tryAcquire o now n s).2.tokens ∧
    (RateLimiter.tryAcquire o now n s).2.tokens ≤ (o.maxTokens : Int) ∧
    (RateLimiter.tryAcquire o now n s).2.lastRefill ≤ now := by
  obtain ⟨hb0, hb1⟩ := refill_tokens_bounds o now s h0 h1
  have hlr1 := refill_lastRefill_le o now s hlr
  simp only [RateLimiter.tryAcquire]
  split
  next h =>
    refine ⟨?_, ?_, ?_⟩
    · show 0 ≤ (RateLimiter.refill o now s).tokens - (n : Int)
      omega
    · show (RateLimiter.refill o now s).tokens - (n : Int) ≤ (o.maxTokens : Int)
      omega
    · exact hlr1
  next h => exact ⟨hb0, hb1, hlr1⟩

theorem runOp_preserves (o : RLOptions) (hrate : 0 < o.refillRate)
    (hint : 0 < o.refillInterval) (p : RLState × Nat) (op : Nat × RLAction)
    (hwf : RLWf o p) (hok : opOk o op) : RLWf o (RateLimiter.runOp o p op) := by
  obtain ⟨st, t⟩ := p
  obtain ⟨d, act⟩ := op
  obtain ⟨h0, h1, hlr⟩ := hwf
  have hlr2 : st.lastRefill ≤ t + d := le_trans hlr (Nat.le_add_right t d)
  cases act with
  | acquire n =>
    have h := acquire_preserves o hrate hint st (t + d) n h0 h1 hlr2 hok
    exact ⟨h.1, h.2.1, h.2.2⟩
  | tryAcquire n =>
    have h := tryAcquire_preserves o (t + d) n st h0 h1 hlr2
    exact ⟨h.1, h.2.1, h.2.2⟩
  | getAvailableTokens =>
    obtain ⟨hb0, hb1⟩ := refill_tokens_bounds o (t + d) st h0 h1
    exact ⟨hb0, hb1, refill_lastRefill_le o (t + d) st hlr2⟩
  | reset =>
    exact ⟨Int.natCast_nonneg _, le_refl _, le_refl _⟩

theorem runOps_preserves (o : RLOptions) (hrate : 0 < o.refillRate)
    (hint : 0 < o.refillInterval) (ops : List (Nat × RLAction)) :
    ∀ p, RLWf o p → (∀ op ∈ ops, opOk o op) →
      RLWf o (RateLimiter.runOps o p ops) := by
  induction ops with
  | nil =>
    intro p hwf _
    exact hwf
  | cons hd tl ih =>
    intro p hwf hops
    have h1 := runOp_preserves o hrate hint p hd hwf (hops hd (List.mem_cons_self hd tl))
    exact ih (RateLimiter.runOp o p hd) h1 (fun op h => hops op (List.mem_cons_of_mem hd h))

/-- C5 amended: the invariant 0 <= tokens <= maxTokens holds after every
operation of any monotonically timed sequence of acquire, tryAcquire,
getAvailableTokens and reset operations, provided refillRate and
refillInterval are positive (the defaults are 1 and 1000) and every blocking
acquire requests at most maxTokens; a tryAcquire may request any amount. An
acquire of more than maxTokens drives the count negative, as the
counterexample shows. -/
theorem rl_invariant_amended (o : RLOptions) (p : RLState × Nat)
    (ops : List (Nat × RLAction))
    (hrate : 0 < o.refillRate) (hint : 0 < o.refillInterval)
    (hwf : RLWf o p) (hops : ∀ op ∈ ops, opOk o op) :
    0 ≤ (RateLimiter.runOps o p ops).1.tokens ∧
    (RateLimiter.runOps o p ops).1.tokens ≤ (o.maxTokens : Int) := by
  have h := runOps_preserves o hrate hint ops p hwf hops
  exact ⟨h.1, h.2.1⟩

theorem rl_invariant_amended_witness :
    0 ≤ (RateLimiter.runOps defaultRLOptions
      (RateLimiter.initState defaultRLOptions 0, 0)
      [(0, RLAction.tryAcquire 25), (500, RLAction.acquire 10),
       (1500, RLAction.getAvailableTokens), (0, RLAction.reset)]).1.tokens ∧
    (RateLimiter.runOps defaultRLOptions
      (RateLimiter.initState defaultRLOptions 0, 0)
      [(0, RLAction.tryAcquire 25), (500, RLAction.acquire 10),
       (1500, RLAction.getAvailableTokens), (0, RLAction.reset)]).1.tokens
      ≤ ((defaultRLOptions.maxTokens : Nat) : Int) := by
  refine rl_invariant_amended defaultRLOptions
    (RateLimiter.initState defaultRLOptions 0, 0)
    [(0, RLAction.tryAcquire 25), (500, RLAction.acquire 10),
     (1500, RLAction.getAvailableTokens), (0, RLAction.reset)]
    (by decide) (by decide) (by decide) ?_
  intro op hop
  simp only [List.mem_cons, List.not_mem_nil, or_false] at hop
  rcases hop with h | h | h | h <;> subst h <;> simp [opOk, defaultRLOptions]

end TripPlanner
